import Mathlib

/-!
Verification of the lgtmcp review engine (`internal/review/review.go`) against
its design specification.  The Go code is shallowly embedded: pure string and
path manipulation is reimplemented over `List Char`, filesystem and subprocess
effects become explicit oracle records, and the conversational loop becomes a
fuel-indexed step function.
-/

namespace Lgtmcp

/-! ## Go path primitives

Character-level embeddings of `strings.Contains`, `strings.HasPrefix`,
`path/filepath.Clean`, `filepath.Join`, `filepath.IsAbs` and `filepath.Abs`
(Unix separator, as used by `handleFileRetrieval`). -/

/-- Substring search: `sub` occurs contiguously inside `s`. -/
def listHasInfix (sub : List Char) : List Char → Bool
  | [] => sub.isPrefixOf []
  | c :: rest => sub.isPrefixOf (c :: rest) || listHasInfix sub rest

/-- `strings.Contains s sub`: `sub` occurs as a substring of `s`. -/
def goContains (s sub : String) : Bool :=
  listHasInfix sub.toList s.toList

/-- `strings.HasPrefix s pre`: `s` starts with `pre`. -/
def goStartsWith (s pre : String) : Bool :=
  pre.toList.isPrefixOf s.toList

/-- Split a character list on the path separator. -/
def splitSlash : List Char → List (List Char)
  | [] => [[]]
  | c :: rest =>
    let r := splitSlash rest
    if c = '/' then [] :: r
    else
      match r with
      | h :: t => (c :: h) :: t
      | [] => [[c]]

/-- Join components with the path separator. -/
def joinSlash : List (List Char) → List Char
  | [] => []
  | [x] => x
  | x :: xs => x ++ '/' :: joinSlash xs

/-- The `..` path element. -/
def dotdot : List Char := ['.', '.']

/-- One step of `filepath.Clean`'s element processing: `..` pops the last
retained element, is dropped at the root of a rooted path, and accumulates at
the front of a relative path. -/
def cleanStep (rooted : Bool) (acc : List (List Char)) (c : List Char) :
    List (List Char) :=
  if c = dotdot then
    match acc.getLast? with
    | some l => if l = dotdot then acc ++ [c] else acc.dropLast
    | none => if rooted then [] else [dotdot]
  else acc ++ [c]

/-- `filepath.Clean` (Unix): lexical shortest-equivalent path. -/
def goClean (p : String) : String :=
  match p.toList with
  | [] => "."
  | c :: cs =>
    let rooted := c = '/'
    let comps := (splitSlash (c :: cs)).filter fun x => decide (x ≠ [] ∧ x ≠ ['.'])
    let outs := comps.foldl (cleanStep rooted) []
    if outs = [] then (if rooted then "/" else ".")
    else String.mk ((if rooted then ['/'] else []) ++ joinSlash outs)

/-- `filepath.Join a b`: empty elements are dropped, the rest are joined with
the separator and cleaned. -/
def goJoin (a b : String) : String :=
  if a = "" then (if b = "" then "" else goClean b)
  else if b = "" then goClean a
  else goClean (a ++ "/" ++ b)

/-- `filepath.IsAbs` (Unix): the path starts with the separator. -/
def goIsAbs (p : String) : Bool :=
  goStartsWith p "/"

/-- `filepath.Abs` relative to working directory `cwd`: clean an absolute
path, otherwise join with the working directory. -/
def goAbs (cwd p : String) : String :=
  if goIsAbs p then goClean p else goJoin cwd p

/-! ## Filesystem and git oracles -/

/-- Outcome of running `git check-ignore` (`exec.Command.Run`): either the
process exited with a code (and stderr output), or it could not be executed at
all (e.g. git not found). -/
inductive GitExec where
  | exit (code : Nat) (stderr : String)
  | execFailure (msg : String)
deriving DecidableEq

/-- The filesystem and subprocess state visible to `handleFileRetrieval`:
`lstat` returns `some isSymlink` when the path exists (`os.Lstat`),
`evalSymlinks` is `filepath.EvalSymlinks`, `readFile` is `os.ReadFile`, and
`gitCheckIgnore` is the result of running `git check-ignore` on the requested
(relative) path with the repository as working directory. -/
structure FS where
  lstat : String → Option Bool
  evalSymlinks : String → Except String String
  readFile : String → Except String String
  gitCheckIgnore : String → GitExec

/-- `isFileGitIgnored` (review.go): exit 0 means ignored, exit 1 means not
ignored, exit 128 or any other failure is an error — the caller fails closed. -/
def isFileGitIgnored (fs : FS) (relativePath : String) : Except String Bool :=
  match fs.gitCheckIgnore relativePath with
  | .exit 0 _ => .ok true
  | .exit 1 _ => .ok false
  | .exit 128 stderr => .error ("git check-ignore failed: exit status 128: " ++ stderr)
  | .exit code _ => .error ("failed to execute git check-ignore: exit status " ++ toString code)
  | .execFailure m => .error ("failed to execute git check-ignore: " ++ m)

/-! ## The sandboxed accessor -/

/-- The function-response map built by `handleFileRetrieval`: either a
`content` entry or an `error` entry, never both. -/
inductive ToolResponse where
  | content (text : String)
  | error (msg : String)
deriving DecidableEq

/-- The response carries file content. -/
def ToolResponse.isContent : ToolResponse → Bool
  | .content _ => true
  | .error _ => false

/-- The response carries a denial or failure message. -/
def ToolResponse.isError : ToolResponse → Bool
  | .content _ => false
  | .error _ => true

/-- A value taken from the tool call's `Args` map: a string, or some
non-string JSON value. -/
inductive FuncArg where
  | str (s : String)
  | nonString
deriving DecidableEq

/-- The canonical boundary check of `handleFileRetrieval`:
`strings.HasPrefix(p, absRepo + "/") || p == absRepo`. -/
def pathWithinRepo (absRepo p : String) : Bool :=
  goStartsWith p (absRepo ++ "/") || p = absRepo

/-- The final read of `handleFileRetrieval` (`os.ReadFile` on the resolved
path). -/
def readReal (fs : FS) (realPath : String) : ToolResponse :=
  match fs.readFile realPath with
  | .error e => .error ("failed to read file: " ++ e)
  | .ok c => .content c

/-- `handleFileRetrieval` (review.go lines 549-673): validate the requested
path, join it with the repository root, canonicalize, check the canonical
prefix boundary, consult the gitignore oracle (fail closed), resolve a
symlink target and re-check the boundary, then read.  `filepath.Abs` is
modeled as total (its only failure mode is `os.Getwd` failing). -/
def handleFileRetrieval (fs : FS) (cwd : String) (arg : Option FuncArg)
    (repoPath : String) : ToolResponse :=
  match arg with
  | some (.str requestedPath) =>
    if goContains requestedPath ".." then
      .error "invalid filepath: path traversal not allowed"
    else
      let fullPath := goJoin repoPath requestedPath
      let absPath := goAbs cwd fullPath
      let absRepoPath := goAbs cwd repoPath
      if pathWithinRepo absRepoPath absPath then
        match isFileGitIgnored fs requestedPath with
        | .error e => .error ("access denied: unable to verify gitignore status: " ++ e)
        | .ok true => .error "access denied: file is gitignored"
        | .ok false =>
          match fs.lstat absPath with
          | some true =>
            match fs.evalSymlinks absPath with
            | .error e => .error ("failed to evaluate symlink: " ++ e)
            | .ok evaluated =>
              if pathWithinRepo absRepoPath evaluated then readReal fs evaluated
              else .error "access denied: path is outside repository"
          | _ => readReal fs absPath
      else
        .error "access denied: path is outside repository"
  | _ => .error "filepath parameter must be a string"

/-! ## Error classification and retry coordinator -/

/-- An error surfaced by the transport: either a structured `genai.APIError`
(HTTP code, gRPC-style status, message) or a plain error.  `retryDelay` is the
provider-suggested delay that `extractRetryDelay` recovers from the error's
`RetryInfo` details (or, as a fallback, from a `retryDelay:` token in the
error text); `none` models an error that carries no usable delay. -/
inductive GErr where
  | api (code : Int) (status : String) (message : String) (retryDelay : Option ℚ)
  | plain (message : String) (retryDelay : Option ℚ)
deriving DecidableEq

/-- `extractRetryDelay`: the provider-suggested delay carried by the error, or
0 when there is none (seconds). -/
def extractRetryDelay (e : GErr) : ℚ :=
  match e with
  | .api _ _ _ d => d.getD 0
  | .plain _ d => d.getD 0

/-- `isRetryableError` (review.go lines 160-222): for a structured API error,
408/429/500/502/503/504 are retryable, 501 is explicitly not, and otherwise
the gRPC-style status field decides; for plain errors, substring matching on
the message text decides. -/
def isRetryableError (e : Option GErr) : Bool :=
  match e with
  | none => false
  | some (.api code status _ _) =>
    if code = 408 ∨ code = 429 ∨ code = 500 ∨ code = 502 ∨ code = 503 ∨ code = 504 then
      true
    else if code = 501 then false
    else
      decide (status = "RESOURCE_EXHAUSTED" ∨ status = "INTERNAL" ∨
        status = "UNAVAILABLE" ∨ status = "DEADLINE_EXCEEDED")
  | some (.plain msg _) =>
    goContains msg "Error 429" || goContains msg "RESOURCE_EXHAUSTED" ||
    goContains msg "Error 408" ||
    goContains msg "Error 500" || goContains msg "Error 502" ||
    goContains msg "Error 503" || goContains msg "Error 504" ||
    goContains msg "INTERNAL" || goContains msg "UNAVAILABLE" ||
    goContains msg "DEADLINE_EXCEEDED"

/-- `config.RetryConfig`.  The Go struct stores the backoff durations as
strings that `calculateBackoff` parses; here they are modeled by their parsed
values in seconds (`calculateBackoff` applies the same defaulting the Go
parse-failure path applies to a zero value). -/
structure RetryConfig where
  maxRetries : Int
  initialBackoff : ℚ
  maxBackoff : ℚ
  backoffMultiplier : ℚ
deriving DecidableEq

/-- `calculateBackoff` (review.go lines 267-293): exponential backoff
`initialBackoff * multiplier^attempt`, `±20%` jitter (`j` is the sampled
`rand.Float64()*0.4 - 0.2`, so `-1/5 ≤ j < 1/5`), capped at `maxBackoff`;
zero (unparseable) durations default to 1s and 60s. -/
def calculateBackoff (attempt : Nat) (cfg : RetryConfig) (j : ℚ) : ℚ :=
  let initial := if cfg.initialBackoff = 0 then 1 else cfg.initialBackoff
  let maxB := if cfg.maxBackoff = 0 then 60 else cfg.maxBackoff
  let backoff := initial * cfg.backoffMultiplier ^ attempt * (1 + j)
  if backoff > maxB then maxB else backoff

/-- The wait chosen before the next retry (review.go lines 333-350): a
positive provider-suggested delay wins, otherwise the computed jittered
backoff. -/
def waitBeforeRetry (e : GErr) (attempt : Nat) (cfg : RetryConfig) (j : ℚ) : ℚ :=
  if 0 < extractRetryDelay e then extractRetryDelay e else calculateBackoff attempt cfg j

/-- Outcome of `retryableOperation`: success, the operation's own error
returned verbatim (non-retryable, or the no-retry path), or the wrapped
"failed after N attempts" error carrying the attempt count and last
underlying error. -/
inductive RetryOutcome where
  | ok
  | failed (e : GErr)
  | exhausted (attempts : Nat) (last : GErr)
deriving DecidableEq

/-- Run the operation once and return its result verbatim (the
`retryConfig == nil || MaxRetries <= 0` path). -/
def runOnce (op : Nat → Option GErr) : Nat × RetryOutcome :=
  match op 0 with
  | none => (1, .ok)
  | some e => (1, .failed e)

/-- The retry loop of `retryableOperation` (review.go lines 307-369), started
at `attempt`.  `op i` is the error produced by the `(i+1)`-th execution
(`none` = success).  Returns how many times the operation ran, and the
outcome.  Context cancellation is modeled as never firing. -/
def retryAux (op : Nat → Option GErr) (maxR : Nat) (attempt : Nat) :
    Nat × RetryOutcome :=
  match op attempt with
  | none => (attempt + 1, .ok)
  | some e =>
    if isRetryableError (some e) = false then (attempt + 1, .failed e)
    else if maxR ≤ attempt then (attempt + 1, .exhausted (maxR + 1) e)
    else retryAux op maxR (attempt + 1)
termination_by maxR + 1 - attempt
decreasing_by simp_wf; omega

/-- `retryableOperation`: run once when retry is not configured, otherwise
loop attempts `0..maxRetries`. -/
def retryableOperation (cfg : Option RetryConfig) (op : Nat → Option GErr) :
    Nat × RetryOutcome :=
  match cfg with
  | none => runOnce op
  | some c => if c.maxRetries ≤ 0 then runOnce op else retryAux op c.maxRetries.toNat 0

/-! ## Conversation model (exploration phase of `ReviewDiff`) -/

/-- A `genai.FunctionCall`: tool name and the value of its `filepath`
argument (`none` = the `Args` map has no `filepath` entry). -/
structure FunctionCall where
  name : String
  args : Option FuncArg
deriving DecidableEq

/-- A `genai.Part` as inspected by the loop: its text and its optional
function call. -/
structure Part where
  text : String
  functionCall : Option FunctionCall
deriving DecidableEq

/-- A response candidate (`candidate.Content.Parts`). -/
structure Candidate where
  parts : List Part
deriving DecidableEq

/-- A `genai.GenerateContentResponse`. -/
structure Response where
  candidates : List Candidate
deriving DecidableEq

/-- The part scan of the exploration loop (review.go lines 441-470): walk the
parts in order, recording each non-empty text as the current analysis, and
stop at the first part holding a function call.  Returns the updated analysis
text and the first function call, if any. -/
def scanParts (analysis : String) : List Part → String × Option FunctionCall
  | [] => (analysis, none)
  | p :: rest =>
    match p.functionCall with
    | some fc => (analysis, some fc)
    | none => scanParts (if p.text = "" then analysis else p.text) rest

/-- Whether a response's first candidate contains any function call (the
loop's `hasToolCalls`). -/
def responseHasToolCall (r : Response) : Bool :=
  match r.candidates with
  | [] => false
  | c :: _ => c.parts.any fun p => p.functionCall.isSome

/-- Total number of function-call parts contained anywhere in a response. -/
def toolCallCount (r : Response) : Nat :=
  (r.candidates.map fun c => (c.parts.filter fun p => p.functionCall.isSome).length).sum

/-- Transport events observable at the `GeminiClient` boundary. -/
inductive TEvent where
  | createChat
  | sendMessage
  | generateContent
deriving DecidableEq

/-- State of the exploration loop: the response under inspection, the
accumulated analysis text, the index of the next `SendMessage`, the tool
responses sent so far, and the transport events so far. -/
structure ExplState where
  response : Option Response
  analysis : String
  turn : Nat
  sent : List ToolResponse
  events : List TEvent
deriving DecidableEq

/-- Result of one iteration of the exploration loop. -/
inductive StepResult where
  | done (analysis : String) (sent : List ToolResponse) (events : List TEvent)
  | failed (e : GErr) (events : List TEvent)
  | next (s : ExplState)
deriving DecidableEq

/-- One iteration of the exploration loop (review.go lines 436-476): exit
when the response is nil, has no candidates, or its first candidate carries
no function call; otherwise answer the first function call through
`handleFileRetrieval`, send the tool response, and continue with the reply.
`send n` is the (retry-wrapped) result of the `n`-th `SendMessage` on the
chat. -/
def explStep (fs : FS) (cwd repoPath : String)
    (send : Nat → Except GErr (Option Response)) (s : ExplState) : StepResult :=
  match s.response with
  | none => .done s.analysis s.sent s.events
  | some resp =>
    match resp.candidates with
    | [] => .done s.analysis s.sent s.events
    | cand :: _ =>
      match scanParts s.analysis cand.parts with
      | (analysis2, none) => .done analysis2 s.sent s.events
      | (analysis2, some fc) =>
        let tr := handleFileRetrieval fs cwd fc.args repoPath
        match send s.turn with
        | .error e => .failed e (s.events ++ [.sendMessage])
        | .ok r2 =>
          .next ⟨r2, analysis2, s.turn + 1, s.sent ++ [tr], s.events ++ [.sendMessage]⟩

/-- Completed runs of the exploration loop. -/
inductive ExplOutcome where
  | finished (analysis : String) (sent : List ToolResponse) (events : List TEvent)
  | aborted (e : GErr) (events : List TEvent)
deriving DecidableEq

/-- Run the exploration loop for at most `fuel` iterations; `none` means the
loop was still running after `fuel` iterations.  The Go loop has no such
bound — the fuel exists only to express the loop as a total function. -/
def explRun (fs : FS) (cwd repoPath : String)
    (send : Nat → Except GErr (Option Response)) :
    Nat → ExplState → Option ExplOutcome
  | 0, _ => none
  | fuel + 1, s =>
    match explStep fs cwd repoPath send s with
    | .done a sent ev => some (.finished a sent ev)
    | .failed e ev => some (.aborted e ev)
    | .next s2 => explRun fs cwd repoPath send fuel s2

/-! ## JSON values, parsing, and `encoding/json` unmarshalling into `Result`

The decision phase parses the first non-empty text part with
`json.Unmarshal([]byte(text), &result)`.  `Json` is the value grammar,
`parseJson` a standard recursive-descent parser (fuel-indexed for totality),
and `unmarshalResultJson` the documented `encoding/json` semantics for the
two-field struct: unknown keys ignored, key matching case-insensitive, a JSON
null leaves the field's zero value, a wrongly-typed value or a non-object
(other than null) top level is an error. -/

/-- A JSON value.  Number tokens are kept as their source text: the `Result`
struct has no numeric field, so their value is never consulted. -/
inductive Json where
  | null
  | bool (b : Bool)
  | num (tok : String)
  | str (s : String)
  | arr (elems : List Json)
  | obj (fields : List (String × Json))

/-- The opening brace character. -/
def lbrace : Char := Char.ofNat 123

/-- The closing brace character. -/
def rbrace : Char := Char.ofNat 125

/-- Skip JSON whitespace. -/
def skipWs : List Char → List Char
  | c :: rest =>
    if c = ' ' ∨ c = '\t' ∨ c = '\n' ∨ c = '\r' then skipWs rest else c :: rest
  | [] => []

/-- Hexadecimal digit value. -/
def hexVal (c : Char) : Option Nat :=
  if '0' ≤ c ∧ c ≤ '9' then some (c.toNat - 48)
  else if 'a' ≤ c ∧ c ≤ 'f' then some (c.toNat - 87)
  else if 'A' ≤ c ∧ c ≤ 'F' then some (c.toNat - 55)
  else none

/-- Decimal digit test. -/
def isDigitCh (c : Char) : Bool :=
  decide ('0' ≤ c ∧ c ≤ '9')

/-- Parse the body of a JSON string literal (opening quote already
consumed), handling the escape sequences. -/
def pStringBody : Nat → List Char → List Char → Option (String × List Char)
  | 0, _, _ => none
  | _ + 1, acc, '\"' :: rest => some (String.mk acc.reverse, rest)
  | f + 1, acc, '\\' :: e :: rest =>
    match e with
    | '\"' => pStringBody f ('\"' :: acc) rest
    | '\\' => pStringBody f ('\\' :: acc) rest
    | '/' => pStringBody f ('/' :: acc) rest
    | 'b' => pStringBody f (Char.ofNat 8 :: acc) rest
    | 'f' => pStringBody f (Char.ofNat 12 :: acc) rest
    | 'n' => pStringBody f ('\n' :: acc) rest
    | 'r' => pStringBody f ('\r' :: acc) rest
    | 't' => pStringBody f ('\t' :: acc) rest
    | 'u' =>
      match rest with
      | h1 :: h2 :: h3 :: h4 :: rest2 =>
        match hexVal h1, hexVal h2, hexVal h3, hexVal h4 with
        | some a, some b, some c, some d =>
          pStringBody f (Char.ofNat (((a * 16 + b) * 16 + c) * 16 + d) :: acc) rest2
        | _, _, _, _ => none
      | _ => none
    | _ => none
  | f + 1, acc, c :: rest =>
    if c = '\\' ∨ c = '\"' then none else pStringBody f (c :: acc) rest
  | _ + 1, _, [] => none

/-- Parse a JSON number token (sign, integer part, optional fraction and
exponent), returning its source text. -/
def pNumTok (cs : List Char) : Option (String × List Char) :=
  let (sign, cs1) :=
    match cs with
    | '-' :: r => (['-'], r)
    | _ => (([] : List Char), cs)
  let ds := cs1.takeWhile isDigitCh
  if ds = [] then none
  else
    let cs2 := cs1.dropWhile isDigitCh
    let (frac, cs3) :=
      match cs2 with
      | '.' :: r =>
        let fs := r.takeWhile isDigitCh
        if fs = [] then (([] : List Char), ('.' :: r))
        else ('.' :: fs, r.dropWhile isDigitCh)
      | _ => (([] : List Char), cs2)
    if frac = [] ∧ cs3 ≠ cs2 then none
    else
      match cs3 with
      | e :: r =>
        if e = 'e' ∨ e = 'E' then
          let (esign, r2) :=
            match r with
            | '+' :: r3 => (['+'], r3)
            | '-' :: r3 => (['-'], r3)
            | _ => (([] : List Char), r)
          let es := r2.takeWhile isDigitCh
          if es = [] then none
          else some (String.mk (sign ++ ds ++ frac ++ [e] ++ esign ++ es),
            r2.dropWhile isDigitCh)
        else some (String.mk (sign ++ ds ++ frac), cs3)
      | [] => some (String.mk (sign ++ ds ++ frac), cs3)

mutual

/-- Parse one JSON value. -/
def pValue : Nat → List Char → Option (Json × List Char)
  | 0, _ => none
  | f + 1, cs =>
    match skipWs cs with
    | [] => none
    | c :: rest =>
      if c = lbrace then
        match skipWs rest with
        | c2 :: rest2 =>
          if c2 = rbrace then some (.obj [], rest2)
          else pMembers f [] (c2 :: rest2)
        | [] => none
      else if c = '[' then
        match skipWs rest with
        | ']' :: rest2 => some (.arr [], rest2)
        | cs2 => pElems f [] cs2
      else if c = '\"' then
        match pStringBody (rest.length + 1) [] rest with
        | some (s, rest2) => some (.str s, rest2)
        | none => none
      else if c = 't' then
        match rest with
        | 'r' :: 'u' :: 'e' :: rest2 => some (.bool true, rest2)
        | _ => none
      else if c = 'f' then
        match rest with
        | 'a' :: 'l' :: 's' :: 'e' :: rest2 => some (.bool false, rest2)
        | _ => none
      else if c = 'n' then
        match rest with
        | 'u' :: 'l' :: 'l' :: rest2 => some (.null, rest2)
        | _ => none
      else
        match pNumTok (c :: rest) with
        | some (tok, rest2) => some (.num tok, rest2)
        | none => none

/-- Parse the members of an object, positioned at a key. -/
def pMembers : Nat → List (String × Json) → List Char →
    Option (Json × List Char)
  | 0, _, _ => none
  | f + 1, acc, cs =>
    match skipWs cs with
    | '\"' :: rest =>
      match pStringBody (rest.length + 1) [] rest with
      | some (k, rest2) =>
        match skipWs rest2 with
        | ':' :: rest3 =>
          match pValue f rest3 with
          | some (v, rest4) =>
            match skipWs rest4 with
            | ',' :: rest5 => pMembers f (acc ++ [(k, v)]) rest5
            | c :: rest5 =>
              if c = rbrace then some (.obj (acc ++ [(k, v)]), rest5) else none
            | [] => none
          | none => none
        | _ => none
      | none => none
    | _ => none

/-- Parse the elements of an array, positioned at a value. -/
def pElems : Nat → List Json → List Char → Option (Json × List Char)
  | 0, _, _ => none
  | f + 1, acc, cs =>
    match pValue f cs with
    | some (v, rest) =>
      match skipWs rest with
      | ',' :: rest2 => pElems f (acc ++ [v]) rest2
      | ']' :: rest2 => some (.arr (acc ++ [v]), rest2)
      | _ => none
    | none => none

end

/-- Parse a complete JSON document: one value, with only trailing
whitespace. -/
def parseJson (s : String) : Option Json :=
  match pValue (s.toList.length + 1) s.toList with
  | some (j, rest) => if skipWs rest = [] then some j else none
  | none => none

/-- `review.Result`: the two-field verdict struct. -/
structure Result where
  comments : String
  lgtm : Bool
deriving DecidableEq

/-- ASCII lower-casing, for `encoding/json`'s case-insensitive key match. -/
def asciiLower (c : Char) : Char :=
  if 'A' ≤ c ∧ c ≤ 'Z' then Char.ofNat (c.toNat + 32) else c

/-- Case-insensitive key comparison. -/
def keyMatches (k field : String) : Bool :=
  k.toList.map asciiLower = field.toList.map asciiLower

/-- Unmarshal a JSON value into `Result` following `encoding/json`: a null
leaves the zero value, an object assigns matching keys (last occurrence
wins, unknown keys skipped, null field values skipped), anything else — and
any wrongly-typed field value — is an error (`none`). -/
def unmarshalResultJson (j : Json) : Option Result :=
  match j with
  | .null => some ⟨"", false⟩
  | .obj fields =>
    fields.foldl
      (fun acc kv =>
        match acc with
        | none => none
        | some r =>
          if keyMatches kv.1 "lgtm" then
            match kv.2 with
            | .bool b => some { r with lgtm := b }
            | .null => some r
            | _ => none
          else if keyMatches kv.1 "comments" then
            match kv.2 with
            | .str s => some { r with comments := s }
            | .null => some r
            | _ => none
          else some r)
      (some ⟨"", false⟩)
  | _ => none

/-- `json.Unmarshal([]byte(s), &result)` as used by `ReviewDiff`: `none` is
an unmarshalling error. -/
def goUnmarshalResult (s : String) : Option Result :=
  (parseJson s).bind unmarshalResultJson

/-- The typed errors `ReviewDiff` can return. -/
inductive RError where
  | emptyDiff
  | contextPromptFailed (e : String)
  | createChatFailed (e : GErr)
  | sendFailed (e : GErr)
  | reviewPromptFailed (e : String)
  | generateFailed (e : GErr)
  | noResponse
  | emptyResponse
  | parseFailed (text : String)

/-- The first part with non-empty text (`part.Text != ""`). -/
def firstNonemptyText : List Part → Option String
  | [] => none
  | p :: rest => if p.text = "" then firstNonemptyText rest else some p.text

/-- Verdict extraction (review.go lines 525-545): `ErrNoResponse` when the
response is nil or has no candidates, otherwise unmarshal the first
non-empty text part of the first candidate; no non-empty text part is
`ErrEmptyResponse`. -/
def parseReviewResponse (r : Option Response) : Except RError Result :=
  match r with
  | none => .error .noResponse
  | some resp =>
    match resp.candidates with
    | [] => .error .noResponse
    | cand :: _ =>
      match firstNonemptyText cand.parts with
      | none => .error .emptyResponse
      | some t =>
        match goUnmarshalResult t with
        | none => .error (.parseFailed t)
        | some res => .ok res

/-! ## The `ReviewDiff` facade -/

/-- The outcome of the two prompt builds (`BuildContextGatheringPrompt`,
`BuildReviewPrompt`); prompt text itself is irrelevant to the claims. -/
structure PromptOracle where
  contextPrompt : Except String Unit
  reviewPrompt : Except String Unit

/-- The remote transport: chat creation, the (retry-wrapped) result of the
`n`-th `SendMessage` on the chat, and the (retry-wrapped) structured
`GenerateContent` call. -/
structure Transport where
  createChat : Except GErr Unit
  send : Nat → Except GErr (Option Response)
  generate : Except GErr (Option Response)

/-- `ReviewDiff` (review.go lines 373-546): validate the diff, build the
context prompt, create the chat, send the initial prompt, run the
exploration loop (fuel-indexed; `none` = still looping), then run the
decision phase and parse the verdict.  The second component records every
transport operation performed, in order. -/
def reviewDiff (fs : FS) (cwd : String) (pr : PromptOracle) (tp : Transport)
    (fuel : Nat) (diff : String) (_changedFiles : List String)
    (repoPath : String) : Option (Except RError Result × List TEvent) :=
  if diff = "" then some (.error .emptyDiff, [])
  else
    match pr.contextPrompt with
    | .error e => some (.error (.contextPromptFailed e), [])
    | .ok _ =>
      match tp.createChat with
      | .error e => some (.error (.createChatFailed e), [.createChat])
      | .ok _ =>
        match tp.send 0 with
        | .error e => some (.error (.sendFailed e), [.createChat, .sendMessage])
        | .ok r0 =>
          match explRun fs cwd repoPath tp.send fuel
              ⟨r0, "", 1, [], [.createChat, .sendMessage]⟩ with
          | none => none
          | some (.aborted e ev) => some (.error (.sendFailed e), ev)
          | some (.finished _ _ ev) =>
            match pr.reviewPrompt with
            | .error e => some (.error (.reviewPromptFailed e), ev)
            | .ok _ =>
              match tp.generate with
              | .error e => some (.error (.generateFailed e), ev ++ [.generateContent])
              | .ok rr => some (parseReviewResponse rr, ev ++ [.generateContent])

/-! ## Concrete fixtures used by witnesses and counterexamples -/

/-- A demonstration filesystem over `/repo`: three regular files, a symlink
`sneaky` pointing outside the repository, and a git that reports nothing as
ignored. -/
def fsDemo : FS where
  lstat := fun p =>
    if p = "/repo/etc/hosts" ∨ p = "/repo/a.txt" ∨ p = "/repo/b.txt" ∨ p = "/repo/sub/f.txt"
    then some false
    else if p = "/repo/sneaky" then some true
    else none
  evalSymlinks := fun p =>
    if p = "/repo/sneaky" then .ok "/outside/secret" else .error "lstat failed"
  readFile := fun p =>
    if p = "/repo/etc/hosts" then .ok "hosts file content"
    else if p = "/repo/a.txt" then .ok "alpha"
    else if p = "/repo/b.txt" then .ok "beta"
    else if p = "/repo/sub/f.txt" then .ok "subfile"
    else if p = "/outside/secret" then .ok "secret content"
    else .error "no such file"
  gitCheckIgnore := fun _ => .exit 1 ""

/-- The same filesystem with a broken git: `git check-ignore` exits 128. -/
def fsGitBroken : FS :=
  { fsDemo with gitCheckIgnore := fun _ => .exit 128 "fatal: not a git repository" }

/-! ## C1 — path validation in the accessor -/

/-- C1 counterexample: the accessor does not reject absolute paths.  The
absolute request `/etc/hosts` is joined beneath the repository root by
`filepath.Join`, passes the boundary check as `/repo/etc/hosts`, and its
content is returned — not a denial. -/
theorem c1_absolute_path_counterexample :
    goIsAbs "/etc/hosts" = true ∧
    handleFileRetrieval fsDemo "/cwd" (some (.str "/etc/hosts")) "/repo" =
      .content "hosts file content" := by
  exact ⟨rfl, rfl⟩

/-- C1 (amended): a request containing `..` is denied identically on every
filesystem state (so before any filesystem access); a request whose
canonicalized join with the root fails the canonical boundary check is
denied; file content is only ever returned when the canonicalized path
passes the boundary check; and the boundary check itself is not a naive
string-prefix check (a sibling directory sharing a name prefix is outside).
Absolute requests are not rejected: they are rebased under the root
(`c1_absolute_path_counterexample`'s scenario). -/
theorem c1_sandbox_path_validation :
    (∀ (fs : FS) (cwd repo p : String), goContains p ".." = true →
        handleFileRetrieval fs cwd (some (.str p)) repo =
          .error "invalid filepath: path traversal not allowed") ∧
    (∀ (fs : FS) (cwd repo p : String), goContains p ".." = false →
        pathWithinRepo (goAbs cwd repo) (goAbs cwd (goJoin repo p)) = false →
        handleFileRetrieval fs cwd (some (.str p)) repo =
          .error "access denied: path is outside repository") ∧
    (∀ (fs : FS) (cwd repo p c : String),
        handleFileRetrieval fs cwd (some (.str p)) repo = .content c →
        pathWithinRepo (goAbs cwd repo) (goAbs cwd (goJoin repo p)) = true) ∧
    pathWithinRepo "/repo" "/repo2/secret" = false ∧
    pathWithinRepo "/repo" "/repo/sub/f.txt" = true := by
  refine ⟨?_, ?_, ?_, by decide, by decide⟩
  · intro fs cwd repo p h
    simp [handleFileRetrieval, h]
  · intro fs cwd repo p h hw
    simp [handleFileRetrieval, h, hw]
  · intro fs cwd repo p c h
    cases hc : goContains p ".." with
    | true => simp [handleFileRetrieval, hc] at h
    | false =>
      cases hw : pathWithinRepo (goAbs cwd repo) (goAbs cwd (goJoin repo p)) with
      | true => rfl
      | false => simp [handleFileRetrieval, hc, hw] at h

/-- C1 witness: the three general conjuncts applied at concrete inputs — a
traversal request, a request denied by the boundary check (repository root
`/`, where the check's `absRepo ++ "/"` prefix is `//`), and an allowed
in-repository read. -/
theorem c1_sandbox_path_validation_witness :
    handleFileRetrieval fsDemo "/cwd" (some (.str "sub/../../etc/passwd")) "/repo" =
      .error "invalid filepath: path traversal not allowed" ∧
    handleFileRetrieval fsDemo "/cwd" (some (.str "x")) "/" =
      .error "access denied: path is outside repository" ∧
    pathWithinRepo (goAbs "/cwd" "/repo") (goAbs "/cwd" (goJoin "/repo" "a.txt")) = true := by
  refine ⟨?_, ?_, ?_⟩
  · exact c1_sandbox_path_validation.1 fsDemo "/cwd" "/repo" "sub/../../etc/passwd" (by decide)
  · exact c1_sandbox_path_validation.2.1 fsDemo "/cwd" "/" "x" (by decide) (by decide)
  · exact c1_sandbox_path_validation.2.2.1 fsDemo "/cwd" "/repo" "a.txt" "alpha" rfl

/-! ## C2 — symlink escape is re-validated -/

/-- C2: a symlink whose resolved target fails the canonical boundary check
never yields content, on any filesystem state; and when every earlier gate
passes (no traversal token, pre-resolution path inside the root, oracle says
not ignored), the result is exactly the boundary denial produced by
re-checking the resolved target. -/
theorem c2_symlink_escape_denied :
    (∀ (fs : FS) (cwd repo p t : String),
        fs.lstat (goAbs cwd (goJoin repo p)) = some true →
        fs.evalSymlinks (goAbs cwd (goJoin repo p)) = .ok t →
        pathWithinRepo (goAbs cwd repo) t = false →
        (handleFileRetrieval fs cwd (some (.str p)) repo).isContent = false) ∧
    (∀ (fs : FS) (cwd repo p t : String),
        goContains p ".." = false →
        pathWithinRepo (goAbs cwd repo) (goAbs cwd (goJoin repo p)) = true →
        isFileGitIgnored fs p = .ok false →
        fs.lstat (goAbs cwd (goJoin repo p)) = some true →
        fs.evalSymlinks (goAbs cwd (goJoin repo p)) = .ok t →
        pathWithinRepo (goAbs cwd repo) t = false →
        handleFileRetrieval fs cwd (some (.str p)) repo =
          .error "access denied: path is outside repository") := by
  constructor
  · intro fs cwd repo p t h1 h2 h3
    cases hc : goContains p ".." with
    | true => simp [handleFileRetrieval, hc, ToolResponse.isContent]
    | false =>
      cases hw : pathWithinRepo (goAbs cwd repo) (goAbs cwd (goJoin repo p)) with
      | false => simp [handleFileRetrieval, hc, hw, ToolResponse.isContent]
      | true =>
        match hg : isFileGitIgnored fs p with
        | .error e => simp [handleFileRetrieval, hc, hw, hg, ToolResponse.isContent]
        | .ok true => simp [handleFileRetrieval, hc, hw, hg, ToolResponse.isContent]
        | .ok false =>
          simp [handleFileRetrieval, hc, hw, hg, h1, h2, h3, ToolResponse.isContent]
  · intro fs cwd repo p t hc hw hg h1 h2 h3
    simp [handleFileRetrieval, hc, hw, hg, h1, h2, h3]

/-- C2 witness: the symlink `sneaky` resolves to `/outside/secret` and is
denied. -/
theorem c2_symlink_escape_denied_witness :
    handleFileRetrieval fsDemo "/cwd" (some (.str "sneaky")) "/repo" =
      .error "access denied: path is outside repository" := by
  exact c2_symlink_escape_denied.2 fsDemo "/cwd" "/repo" "sneaky" "/outside/secret"
    (by decide) (by decide) rfl rfl rfl (by decide)

/-! ## C3 — the ignore oracle fails closed -/

/-- C3: whenever `isFileGitIgnored` returns an error for the requested path,
the accessor never returns content, on any filesystem state; and when the
earlier gates pass, the result is exactly the fail-closed denial wrapping
the oracle's error. -/
theorem c3_ignore_oracle_fail_closed :
    (∀ (fs : FS) (cwd repo p e : String),
        isFileGitIgnored fs p = .error e →
        (handleFileRetrieval fs cwd (some (.str p)) repo).isContent = false) ∧
    (∀ (fs : FS) (cwd repo p e : String),
        goContains p ".." = false →
        pathWithinRepo (goAbs cwd repo) (goAbs cwd (goJoin repo p)) = true →
        isFileGitIgnored fs p = .error e →
        handleFileRetrieval fs cwd (some (.str p)) repo =
          .error ("access denied: unable to verify gitignore status: " ++ e)) := by
  constructor
  · intro fs cwd repo p e hg
    cases hc : goContains p ".." with
    | true => simp [handleFileRetrieval, hc, ToolResponse.isContent]
    | false =>
      cases hw : pathWithinRepo (goAbs cwd repo) (goAbs cwd (goJoin repo p)) with
      | false => simp [handleFileRetrieval, hc, hw, ToolResponse.isContent]
      | true => simp [handleFileRetrieval, hc, hw, hg, ToolResponse.isContent]
  · intro fs cwd repo p e hc hw hg
    simp [handleFileRetrieval, hc, hw, hg]

/-- C3 witness: with git exiting 128, the otherwise readable `a.txt` is
denied with the fail-closed message. -/
theorem c3_ignore_oracle_fail_closed_witness :
    handleFileRetrieval fsGitBroken "/cwd" (some (.str "a.txt")) "/repo" =
      .error ("access denied: unable to verify gitignore status: " ++
        "git check-ignore failed: exit status 128: fatal: not a git repository") := by
  exact c3_ignore_oracle_fail_closed.2 fsGitBroken "/cwd" "/repo" "a.txt"
    "git check-ignore failed: exit status 128: fatal: not a git repository"
    (by decide) (by decide) rfl

/-! ## C4 — one tool response per processed response -/

/-- A model response whose single candidate carries two function calls. -/
def twoCallResponse : Response :=
  ⟨[⟨[⟨"", some ⟨"get_file_content", some (.str "a.txt")⟩⟩,
      ⟨"", some ⟨"get_file_content", some (.str "b.txt")⟩⟩]⟩]⟩

/-- A reply with no candidates (ends the loop). -/
def noCandidateResponse : Response := ⟨[]⟩

/-- A transport that always replies with the candidate-free response. -/
def oneSend : Nat → Except GErr (Option Response) :=
  fun _ => .ok (some noCandidateResponse)

/-- C4 counterexample: a response containing two tool calls receives exactly
one `ToolResponse` — the part scan stops at the first function call, answers
it, and moves on to the reply; the second call is never answered. -/
theorem c4_multiple_tool_calls_counterexample :
    toolCallCount twoCallResponse = 2 ∧
    explStep fsDemo "/cwd" "/repo" oneSend ⟨some twoCallResponse, "", 0, [], []⟩ =
      .next ⟨some noCandidateResponse, "", 1, [.content "alpha"], [.sendMessage]⟩ := by
  exact ⟨rfl, rfl⟩

/-- C4 (amended): the accessor always produces a response that is either
content or an error (never an exception), and each processed response has
exactly its first function call answered — one `ToolResponse` is appended
before the conversation proceeds; later function calls in the same response
are not answered. -/
theorem c4_tool_response_per_turn :
    (∀ (fs : FS) (cwd : String) (arg : Option FuncArg) (repo : String),
        (handleFileRetrieval fs cwd arg repo).isContent = true ∨
        (handleFileRetrieval fs cwd arg repo).isError = true) ∧
    (∀ (fs : FS) (cwd repo : String) (send : Nat → Except GErr (Option Response))
        (s : ExplState) (resp : Response) (cand : Candidate) (rest : List Candidate)
        (a2 : String) (fc : FunctionCall) (r2 : Option Response),
        s.response = some resp → resp.candidates = cand :: rest →
        scanParts s.analysis cand.parts = (a2, some fc) →
        send s.turn = .ok r2 →
        explStep fs cwd repo send s =
          .next ⟨r2, a2, s.turn + 1,
            s.sent ++ [handleFileRetrieval fs cwd fc.args repo],
            s.events ++ [.sendMessage]⟩) := by
  constructor
  · intro fs cwd arg repo
    cases h : handleFileRetrieval fs cwd arg repo with
    | content t => exact Or.inl rfl
    | error m => exact Or.inr rfl
  · intro fs cwd repo send s resp cand rest a2 fc r2 h1 h2 h3 h4
    simp [explStep, h1, h2, h3, h4]

/-- C4 witness: the two general conjuncts at concrete inputs — a missing
`filepath` argument still gets an error response, and the two-call response
state is advanced with exactly the first call answered. -/
theorem c4_tool_response_per_turn_witness :
    ((handleFileRetrieval fsDemo "/cwd" none "/repo").isContent = true ∨
      (handleFileRetrieval fsDemo "/cwd" none "/repo").isError = true) ∧
    explStep fsDemo "/cwd" "/repo" oneSend ⟨some twoCallResponse, "prior", 4, [], []⟩ =
      .next ⟨some noCandidateResponse, "prior", 5, [.content "alpha"], [.sendMessage]⟩ := by
  constructor
  · exact c4_tool_response_per_turn.1 fsDemo "/cwd" none "/repo"
  · exact c4_tool_response_per_turn.2 fsDemo "/cwd" "/repo" oneSend
      ⟨some twoCallResponse, "prior", 4, [], []⟩ twoCallResponse
      ⟨[⟨"", some ⟨"get_file_content", some (.str "a.txt")⟩⟩,
        ⟨"", some ⟨"get_file_content", some (.str "b.txt")⟩⟩]⟩ []
      "prior" ⟨"get_file_content", some (.str "a.txt")⟩ (some noCandidateResponse)
      rfl rfl rfl rfl

/-! ## C5 — exhaustion after maxRetries + 1 attempts -/

/-- The retry loop on an operation that always fails retryably runs to the
last attempt and returns the wrapped exhaustion outcome. -/
theorem retryAux_exhausts (e : Nat → GErr) (m : Nat)
    (h : ∀ i, i ≤ m → isRetryableError (some (e i)) = true) :
    ∀ k a, a ≤ m → m - a = k →
      retryAux (fun i => some (e i)) m a = (m + 1, .exhausted (m + 1) (e m)) := by
  intro k
  induction k with
  | zero =>
    intro a ha hk
    have haa : a = m := by omega
    subst haa
    unfold retryAux
    simp [h a le_rfl]
  | succ k ih =>
    intro a ha hk
    have ham : a < m := by omega
    have hnm : ¬ m ≤ a := by omega
    unfold retryAux
    simp [h a ham.le, hnm]
    exact ih (a + 1) (by omega) (by omega)

/-- C5: when retry is configured (`MaxRetries > 0`) and every execution
fails with a classified-retryable error, `retryableOperation` runs the
operation exactly `maxRetries + 1` times and returns the wrapped
"failed after N attempts" outcome carrying the last underlying error, with
`N = maxRetries + 1`. -/
theorem c5_retry_exhaustion (c : RetryConfig) (e : Nat → GErr)
    (hm : 0 < c.maxRetries)
    (h : ∀ i, i ≤ c.maxRetries.toNat → isRetryableError (some (e i)) = true) :
    retryableOperation (some c) (fun i => some (e i)) =
      (c.maxRetries.toNat + 1,
        .exhausted (c.maxRetries.toNat + 1) (e c.maxRetries.toNat)) := by
  have hn : ¬ c.maxRetries ≤ 0 := by omega
  simp only [retryableOperation, hn, if_false]
  exact retryAux_exhausts e c.maxRetries.toNat h (c.maxRetries.toNat - 0) 0
    (Nat.zero_le _) rfl

/-- C5 witness: three retryable rate-limit failures with `MaxRetries = 2`
produce three executions and the wrapped exhaustion carrying the last
error. -/
theorem c5_retry_exhaustion_witness :
    retryableOperation (some ⟨2, 1, 60, 2⟩)
        (fun _ => some (.plain "Error 429: rate limited" none)) =
      (3, .exhausted 3 (.plain "Error 429: rate limited" none)) := by
  have hre : isRetryableError (some (.plain "Error 429: rate limited" none)) = true := by
    decide
  exact c5_retry_exhaustion ⟨2, 1, 60, 2⟩ (fun _ => .plain "Error 429: rate limited" none)
    (by decide) (fun _ _ => hre)

/-! ## C7 — fatal errors cause exactly one attempt -/

/-- C7: a structured 501 "not implemented" error is classified
non-retryable (excluded from the retryable 5xx bucket), and any
non-retryable first failure makes `retryableOperation` run the operation
exactly once and return that error verbatim, for every retry
configuration. -/
theorem c7_fatal_single_attempt :
    (∀ (s msg : String) (d : Option ℚ),
        isRetryableError (some (.api 501 s msg d)) = false) ∧
    (∀ (cfg : Option RetryConfig) (op : Nat → Option GErr) (e : GErr),
        op 0 = some e → isRetryableError (some e) = false →
        retryableOperation cfg op = (1, .failed e)) := by
  constructor
  · intro s msg d
    simp [isRetryableError]
  · intro cfg op e h0 hn
    match cfg with
    | none => simp [retryableOperation, runOnce, h0]
    | some c =>
      by_cases hc : c.maxRetries ≤ 0
      · simp [retryableOperation, hc, runOnce, h0]
      · simp only [retryableOperation, hc, if_false]
        unfold retryAux
        simp [h0, hn]

/-- C7 witness: a 501 error with `MaxRetries = 5` is returned after a single
execution. -/
theorem c7_fatal_single_attempt_witness :
    retryableOperation (some ⟨5, 1, 60, 7/5⟩)
        (fun _ => some (.api 501 "" "Not Implemented" none)) =
      (1, .failed (.api 501 "" "Not Implemented" none)) := by
  exact c7_fatal_single_attempt.2 (some ⟨5, 1, 60, 7/5⟩)
    (fun _ => some (.api 501 "" "Not Implemented" none))
    (.api 501 "" "Not Implemented" none) rfl
    (c7_fatal_single_attempt.1 "" "Not Implemented" none)

/-! ## C6 — backoff window and provider-suggested delays -/

/-- C6: with positive effective backoff parameters and jitter sample
`j ∈ [-1/5, 1/5)`, the jittered backoff for loop attempt `a` (the wait
before retry `k = a + 1`, exponent `k - 1 = a`) lies in
`[4/5, 6/5] × initialBackoff × multiplier^a`; the returned wait never
exceeds `maxBackoff`, stays below the upper edge of the window, and is
either inside the window or equal to the `maxBackoff` cap.  A positive
provider-suggested delay is used as the wait instead of the computed
backoff. -/
theorem c6_backoff_bounds :
    (∀ (cfg : RetryConfig) (a : Nat) (j : ℚ),
        0 < cfg.initialBackoff → 0 < cfg.maxBackoff → 0 < cfg.backoffMultiplier →
        -(1/5) ≤ j → j < 1/5 →
        ((4/5) * (cfg.initialBackoff * cfg.backoffMultiplier ^ a) ≤
            cfg.initialBackoff * cfg.backoffMultiplier ^ a * (1 + j) ∧
          cfg.initialBackoff * cfg.backoffMultiplier ^ a * (1 + j) ≤
            (6/5) * (cfg.initialBackoff * cfg.backoffMultiplier ^ a) ∧
          calculateBackoff a cfg j ≤ cfg.maxBackoff ∧
          calculateBackoff a cfg j ≤
            (6/5) * (cfg.initialBackoff * cfg.backoffMultiplier ^ a) ∧
          ((4/5) * (cfg.initialBackoff * cfg.backoffMultiplier ^ a) ≤
              calculateBackoff a cfg j ∨
            calculateBackoff a cfg j = cfg.maxBackoff))) ∧
    (∀ (e : GErr) (a : Nat) (cfg : RetryConfig) (j : ℚ),
        0 < extractRetryDelay e →
        waitBeforeRetry e a cfg j = extractRetryDelay e) := by
  constructor
  · intro cfg a j h1 h2 h3 hj1 hj2
    have hBpos : 0 < cfg.initialBackoff * cfg.backoffMultiplier ^ a := by positivity
    have low : (4/5) * (cfg.initialBackoff * cfg.backoffMultiplier ^ a) ≤
        cfg.initialBackoff * cfg.backoffMultiplier ^ a * (1 + j) := by nlinarith
    have high : cfg.initialBackoff * cfg.backoffMultiplier ^ a * (1 + j) ≤
        (6/5) * (cfg.initialBackoff * cfg.backoffMultiplier ^ a) := by nlinarith
    have hcb : calculateBackoff a cfg j =
        if cfg.maxBackoff < cfg.initialBackoff * cfg.backoffMultiplier ^ a * (1 + j)
        then cfg.maxBackoff
        else cfg.initialBackoff * cfg.backoffMultiplier ^ a * (1 + j) := by
      simp [calculateBackoff, h1.ne', h2.ne', gt_iff_lt]
    by_cases hcap : cfg.maxBackoff <
        cfg.initialBackoff * cfg.backoffMultiplier ^ a * (1 + j)
    · rw [hcb, if_pos hcap]
      exact ⟨low, high, le_refl _, by linarith, Or.inr rfl⟩
    · rw [hcb, if_neg hcap]
      exact ⟨low, high, not_lt.mp hcap, high, Or.inl low⟩
  · intro e a cfg j h
    simp [waitBeforeRetry, h]

/-- C6 witness: both conjuncts at concrete values — attempt 1 with
multiplier 7/5 and jitter 1/10, and an error carrying a 15-second suggested
delay. -/
theorem c6_backoff_bounds_witness :
    ((4/5) * ((1 : ℚ) * (7/5) ^ 1) ≤ (1 : ℚ) * (7/5) ^ 1 * (1 + 1/10) ∧
      (1 : ℚ) * (7/5) ^ 1 * (1 + 1/10) ≤ (6/5) * ((1 : ℚ) * (7/5) ^ 1) ∧
      calculateBackoff 1 ⟨5, 1, 60, 7/5⟩ (1/10) ≤ 60 ∧
      calculateBackoff 1 ⟨5, 1, 60, 7/5⟩ (1/10) ≤ (6/5) * ((1 : ℚ) * (7/5) ^ 1) ∧
      ((4/5) * ((1 : ℚ) * (7/5) ^ 1) ≤ calculateBackoff 1 ⟨5, 1, 60, 7/5⟩ (1/10) ∨
        calculateBackoff 1 ⟨5, 1, 60, 7/5⟩ (1/10) = 60)) ∧
    waitBeforeRetry (.plain "quota exceeded" (some 15)) 0 ⟨5, 1, 60, 7/5⟩ (1/10) =
      extractRetryDelay (.plain "quota exceeded" (some 15)) := by
  constructor
  · exact c6_backoff_bounds.1 ⟨5, 1, 60, 7/5⟩ 1 (1/10) (by norm_num) (by norm_num)
      (by norm_num) (by norm_num) (by norm_num)
  · exact c6_backoff_bounds.2 (.plain "quota exceeded" (some 15)) 0 ⟨5, 1, 60, 7/5⟩
      (1/10) (by norm_num [extractRetryDelay])

/-! ## C8 — empty diff is rejected before any transport call -/

/-- C8: for every filesystem, transport, prompt oracle, fuel and argument
list, `reviewDiff` on an empty diff returns `ErrEmptyDiff` with an empty
transport-event trace — no chat creation, message send or structured
generation happens. -/
theorem c8_empty_diff_before_transport :
    ∀ (fs : FS) (cwd : String) (pr : PromptOracle) (tp : Transport) (fuel : Nat)
      (files : List String) (repo : String),
      reviewDiff fs cwd pr tp fuel "" files repo = some (.error .emptyDiff, []) := by
  intro fs cwd pr tp fuel files repo
  rfl

/-! ## C9 — the exploration loop is unbounded -/

/-- The adversarial function call used to keep the loop running. -/
def advFunctionCall : FunctionCall := ⟨"get_file_content", some (.str "a.txt")⟩

/-- A response whose single candidate always carries a function call. -/
def advResponse : Response := ⟨[⟨[⟨"", some advFunctionCall⟩]⟩]⟩

/-- A transport whose every reply carries a tool call. -/
def advSend : Nat → Except GErr (Option Response) :=
  fun _ => .ok (some advResponse)

/-- The loop state holding the adversarial response. -/
def advState : ExplState := ⟨some advResponse, "", 0, [], []⟩

/-- The part scan finds no function call exactly when no part carries
one. -/
theorem scanParts_snd_none (a : String) (ps : List Part) :
    (scanParts a ps).2 = none ↔ (ps.any fun p => p.functionCall.isSome) = false := by
  induction ps generalizing a with
  | nil => simp [scanParts]
  | cons p rest ih =>
    cases hp : p.functionCall with
    | none => simp [scanParts, hp, ih]
    | some fc => simp [scanParts, hp]

/-- C9: the exploration loop has no turn bound — under a transport whose
every reply contains a tool call, the loop is still running after `n`
iterations for every `n`; and the loop only finishes normally when the
response is nil, has no candidates, or its first candidate contains no tool
call. -/
theorem c9_exploration_unbounded :
    (∀ (fs : FS) (cwd repo : String) (n : Nat) (s : ExplState),
        s.response = some advResponse →
        explRun fs cwd repo advSend n s = none) ∧
    (∀ (fs : FS) (cwd repo : String) (send : Nat → Except GErr (Option Response))
        (s : ExplState) (a : String) (sent : List ToolResponse) (ev : List TEvent),
        explStep fs cwd repo send s = .done a sent ev →
        s.response = none ∨ ∃ resp, s.response = some resp ∧
          (resp.candidates = [] ∨ responseHasToolCall resp = false)) := by
  constructor
  · intro fs cwd repo n
    induction n with
    | zero => intro s _; rfl
    | succ n ih =>
      intro s hs
      have hstep : explStep fs cwd repo advSend s =
          .next ⟨some advResponse, s.analysis, s.turn + 1,
            s.sent ++ [handleFileRetrieval fs cwd advFunctionCall.args repo],
            s.events ++ [.sendMessage]⟩ := by
        simp [explStep, hs, advResponse, scanParts, advSend]
      simp only [explRun, hstep]
      exact ih _ rfl
  · intro fs cwd repo send s a sent ev h
    cases hr : s.response with
    | none => exact Or.inl rfl
    | some resp =>
      refine Or.inr ⟨resp, rfl, ?_⟩
      cases hcands : resp.candidates with
      | nil => exact Or.inl rfl
      | cons cand rest =>
        refine Or.inr ?_
        rcases hsc : scanParts s.analysis cand.parts with ⟨a2, ofc⟩
        cases ofc with
        | some fc =>
          exfalso
          cases hsend : send s.turn <;>
            simp [explStep, hr, hcands, hsc, hsend] at h
        | none =>
          have h2 : (scanParts s.analysis cand.parts).2 = none := by rw [hsc]
          have hany := (scanParts_snd_none s.analysis cand.parts).mp h2
          simp only [responseHasToolCall, hcands]
          exact hany

/-- C9 witness: the loop is still running after 7 iterations on the
adversarial transport, and a nil-response state finishes normally. -/
theorem c9_exploration_unbounded_witness :
    explRun fsDemo "/cwd" "/repo" advSend 7 advState = none ∧
    ((⟨none, "analysis", 3, [], []⟩ : ExplState).response = none ∨
      ∃ resp, (⟨none, "analysis", 3, [], []⟩ : ExplState).response = some resp ∧
        (resp.candidates = [] ∨ responseHasToolCall resp = false)) := by
  constructor
  · exact c9_exploration_unbounded.1 fsDemo "/cwd" "/repo" 7 advState rfl
  · exact c9_exploration_unbounded.2 fsDemo "/cwd" "/repo" advSend
      ⟨none, "analysis", 3, [], []⟩ "analysis" [] [] rfl

/-! ## C10 — verdict parsing -/

/-- A decision response whose only text part is the valid JSON `[]`. -/
def arrTextResponse : Response := ⟨[⟨[⟨"[]", none⟩]⟩]⟩

/-- A decision response carrying a complete verdict object. -/
def goodVerdictResponse : Response :=
  ⟨[⟨[⟨"\x7b\"lgtm\": true, \"comments\": \"No issues found.\"\x7d", none⟩]⟩]⟩

/-- C10 counterexample: `[]` is syntactically valid JSON, yet the decision
phase returns the malformed-verdict error for it — `json.Unmarshal` rejects
a non-object top level, so "error only when the text is not valid JSON" is
too strong. -/
theorem c10_valid_json_error_counterexample :
    parseJson "[]" = some (.arr []) ∧
    parseReviewResponse (some arrTextResponse) = .error (.parseFailed "[]") := by
  exact ⟨rfl, rfl⟩

/-- C10 (amended): an empty object and objects omitting either field
unmarshal to the Go zero values (`LGTM = false`, `Comments = ""`); a
response whose first non-empty text unmarshals yields that `Result`; and an
error arises exactly from a nil response, no candidates, no non-empty text
part, or a first non-empty text that fails to unmarshal — i.e. is not valid
JSON, or is valid JSON that does not fit the two-field object shape. -/
theorem c10_verdict_parsing :
    goUnmarshalResult "\x7b\x7d" = some ⟨"", false⟩ ∧
    goUnmarshalResult "\x7b\"lgtm\": true\x7d" = some ⟨"", true⟩ ∧
    goUnmarshalResult "\x7b\"comments\": \"ok\"\x7d" = some ⟨"ok", false⟩ ∧
    (∀ (resp : Response) (cand : Candidate) (rest : List Candidate)
        (t : String) (res : Result),
        resp.candidates = cand :: rest →
        firstNonemptyText cand.parts = some t →
        goUnmarshalResult t = some res →
        parseReviewResponse (some resp) = .ok res) ∧
    (∀ (r : Option Response) (err : RError),
        parseReviewResponse r = .error err →
        r = none ∨ ∃ resp, r = some resp ∧
          (resp.candidates = [] ∨ ∃ cand rest, resp.candidates = cand :: rest ∧
            (firstNonemptyText cand.parts = none ∨
              ∃ t, firstNonemptyText cand.parts = some t ∧
                goUnmarshalResult t = none))) := by
  refine ⟨rfl, rfl, rfl, ?_, ?_⟩
  · intro resp cand rest t res h1 h2 h3
    simp [parseReviewResponse, h1, h2, h3]
  · intro r err h
    cases r with
    | none => exact Or.inl rfl
    | some resp =>
      refine Or.inr ⟨resp, rfl, ?_⟩
      cases hc : resp.candidates with
      | nil => exact Or.inl rfl
      | cons cand rest =>
        refine Or.inr ⟨cand, rest, rfl, ?_⟩
        cases hf : firstNonemptyText cand.parts with
        | none => exact Or.inl rfl
        | some t =>
          refine Or.inr ⟨t, rfl, ?_⟩
          cases hu : goUnmarshalResult t with
          | none => rfl
          | some res => simp [parseReviewResponse, hc, hf, hu] at h

/-- C10 witness: a complete verdict object is parsed into the expected
`Result`, and a nil response yields the no-response error case of the error
characterization. -/
theorem c10_verdict_parsing_witness :
    parseReviewResponse (some goodVerdictResponse) = .ok ⟨"No issues found.", true⟩ ∧
    ((none : Option Response) = none ∨
      ∃ resp, (none : Option Response) = some resp ∧
        (resp.candidates = [] ∨ ∃ cand rest, resp.candidates = cand :: rest ∧
          (firstNonemptyText cand.parts = none ∨
            ∃ t, firstNonemptyText cand.parts = some t ∧
              goUnmarshalResult t = none))) := by
  constructor
  · exact c10_verdict_parsing.2.2.2.1 goodVerdictResponse
      ⟨[⟨"\x7b\"lgtm\": true, \"comments\": \"No issues found.\"\x7d", none⟩]⟩ []
      "\x7b\"lgtm\": true, \"comments\": \"No issues found.\"\x7d"
      ⟨"No issues found.", true⟩ rfl rfl rfl
  · exact c10_verdict_parsing.2.2.2.2 none .noResponse rfl

end Lgtmcp
